import Mathlib

/-!
# Verification of the NOAA scrapper (`noaa_scrapper.py`)

A shallow embedding of the master–worker NOAA archive scrapper.  The
embedding follows the source file `noaa_scrapper.py`:

* `workerStep` embeds one iteration of `Worker.run` on a dequeued job
  `(year, filename)`.  The HTTP response is given by its status code and,
  abstractly, by the parse of its body as a gzip tar archive
  (`Option (List Member)`, `none` meaning the body is not a valid archive).
  Filesystem state is an association list from paths to byte contents
  (bytes are modelled as `Nat`), and observable actions (network request,
  body read, extraction, appends, completion signals, log records) are
  collected in an effect trace.
* `masterPhase1` embeds `Master.start` up to and including seeding the job
  queue: status check via `raiseForStatus` (the embedding of
  `requests.Response.raise_for_status`, which raises only for 4xx/5xx),
  index construction from the filenames found in the listing, worker
  spawning, `pending` computation, and job enqueueing.
* `masterLoopIter` embeds one iteration of the polling loop of
  `Master.start` (deadline check, liveness check, draining `queue_done`).
* `normalize_years` embeds `Config.normalize_years`; `reMatchDefaultMember`
  embeds `re.match` of `Config.DEFAULT_MEMBER_REGEX` (`\d+-\d+-\d+`), which
  needs no backtracking because `-` is not a digit, so each `\d+` consumes
  a maximal digit run.

Python's `set` is modelled as a duplicate-free list (`List.dedup` of the
seeding list; `discard` is removal by filtering), `pathlib`'s `/` as string
concatenation with `"/"`, and `str`/`int` on numbers as `natRepr` /
`parseDigits` (decimal digits).
-/

/-- Python exceptions raised by the relevant code paths. -/
inductive PyError
  /-- `requests.exceptions.HTTPError` from `raise_for_status`. -/
  | httpError (status : Nat)
  /-- `RuntimeError(msg)` raised in `Master.start`. -/
  | runtimeError (msg : String)
  /-- `ValueError` (e.g. from `int()` on a non-numeral). -/
  | valueError
  /-- `tarfile.ReadError` when the response body is not a gzipped tar. -/
  | tarReadError
deriving DecidableEq

/-- A tar archive member: its name and the bytes of its file. -/
structure Member where
  name : String
  content : List Nat
deriving DecidableEq

/-- The filesystem: paths mapped to file contents (first match wins). -/
abbrev FS := List (String × List Nat)

/-- Content of the file at `p`, if present. -/
def lookupFS (fs : FS) (p : String) : Option (List Nat) :=
  (fs.find? (fun e => e.1 == p)).map (fun e => e.2)

/-- `os.path.isfile`. -/
def isFileFS (fs : FS) (p : String) : Bool :=
  (lookupFS fs p).isSome

/-- `os.remove`. -/
def removeFS (fs : FS) (p : String) : FS :=
  fs.filter (fun e => !(e.1 == p))

/-- Write (create or overwrite) the file at `p` with content `c`. -/
def writeFS (fs : FS) (p : String) (c : List Nat) : FS :=
  (p, c) :: removeFS fs p

/-- `tar.extractall(dir)`: write every member, in listing order, to
`dir ++ "/" ++ name`; a later member with the same name overwrites an
earlier one. -/
def extractAllFS (fs : FS) (dir : String) (ms : List Member) : FS :=
  ms.foldl (fun f m => writeFS f (dir ++ "/" ++ m.name) m.content) fs

/-- Observable actions of one `Worker.run` iteration, in program order. -/
inductive WEffect
  /-- `get(url, stream=True)`: the streaming GET request is issued
  (status line and headers are exchanged; the body is not yet read). -/
  | get (url : String)
  /-- `LOG.warning('Cannot download %s for some reason', filename)`. -/
  | warnCannotDownload (filename : String)
  /-- `LOG.info('The ./%s.txt is already exists', year)`. -/
  | infoExists (year : String)
  /-- `LOG.info('The ./%s.txt is already exists; removing', year)`. -/
  | infoRemoving (year : String)
  /-- `remove(result)`. -/
  | removeF (path : String)
  /-- `tmp.mkdir(exist_ok=True, parents=True)`. -/
  | mkdirTmp (dir : String)
  /-- `res.raw.read()`: the response body is read from the network. -/
  | readBody
  /-- `tar.extractall(tmp)`. -/
  | extractAll (dir : String)
  /-- the aggregation loop: bytes appended to the output file. -/
  | append (path : String) (bytes : List Nat)
  /-- `queue_done.put(year)`: the CompletionSignal for `year`. -/
  | done (year : String)
deriving DecidableEq

/-- The slice of `Config` read by `Worker.run`.  `memberMatch` is the
compiled `member_regex` as applied by `re.match` (anchored at the start). -/
structure WConf where
  url : String
  memberMatch : String → Bool
  force : Bool
  is_compress : Bool
  tmp_dir : String

/-- `result = f'./{year}.gz' if conf.is_compress else f'./{year}'`. -/
def outputPath (conf : WConf) (year : String) : String :=
  if conf.is_compress then "./" ++ year ++ ".gz" else "./" ++ year

/-- `tmp = conf.tmp_dir / year`. -/
def tmpPath (conf : WConf) (year : String) : String :=
  conf.tmp_dir ++ "/" ++ year

/-- One iteration of `Worker.run` on the dequeued job `(year, filename)`,
given the response's status code and the parse of its body as a gzip tar
archive (`none`: not a valid archive; only read in the success branch).
Returns the new filesystem and the effect trace, or the propagated
exception. -/
def workerStep (conf : WConf) (fs : FS) (year filename : String)
    (status : Nat) (body : Option (List Member)) :
    Except PyError (FS × List WEffect) :=
  let url := conf.url ++ filename
  if ¬ (200 ≤ status ∧ status < 300) then
    .ok (fs, [.get url, .warnCannotDownload filename, .done year])
  else
    let result := outputPath conf year
    if isFileFS fs result && !conf.force then
      .ok (fs, [.get url, .infoExists year, .done year])
    else
      let removing := isFileFS fs result && conf.force
      let fs1 := if removing then removeFS fs result else fs
      let es1 := if removing
        then [WEffect.get url, .infoRemoving year, .removeF result]
        else [WEffect.get url]
      let tmp := tmpPath conf year
      match body with
      | none => .error .tarReadError
      | some archive =>
        let fs2 := extractAllFS fs1 tmp archive
        let names := (archive.map Member.name).filter conf.memberMatch
        let bytes :=
          (names.map (fun n => (lookupFS fs2 (tmp ++ "/" ++ n)).getD [])).flatten
        let fs3 := writeFS fs2 result ((lookupFS fs2 result).getD [] ++ bytes)
        .ok (fs3, es1 ++ [.mkdirTmp tmp, .readBody, .extractAll tmp,
                          .append result bytes, .done year])

/-- The effect trace of a worker iteration (empty if it raised). -/
def workerRunTrace (r : Except PyError (FS × List WEffect)) : List WEffect :=
  match r with
  | .ok pr => pr.2
  | .error _ => []

/-- Content of the file at `p` after a worker iteration (`none` if the
iteration raised or the file does not exist). -/
def outputContentAfter (r : Except PyError (FS × List WEffect)) (p : String) :
    Option (List Nat) :=
  match r with
  | .ok pr => lookupFS pr.1 p
  | .error _ => none

/-- All bytes written through `append` effects of a trace, in order. -/
def appendedBytes (r : Except PyError (FS × List WEffect)) : List Nat :=
  ((workerRunTrace r).filterMap (fun e =>
    match e with
    | .append _ b => some b
    | _ => none)).flatten

/-- Content of the extracted file `tmp/<n>` after `extractall`: the content
of the last archive member named `n` (later members overwrite earlier
ones), or `[]` if no member is named `n`. -/
def lastContent (ms : List Member) (n : String) : List Nat :=
  match (ms.filter (fun m => m.name == n)).getLast? with
  | some m => m.content
  | none => []

/-- The bytes `Worker.run` appends for an archive: the extracted files of
the members whose names match, in the archive's member listing order. -/
def aggregateBytes (p : String → Bool) (ms : List Member) : List Nat :=
  (((ms.map Member.name).filter p).map (lastContent ms)).flatten

/-- `re.match(r'\d+-\d+-\d+', s)` as a Bool: the default
`Config.DEFAULT_MEMBER_REGEX` anchored at the start of `s`.  Since `-` is
not a digit, each greedy `\d+` deterministically takes a maximal digit
run, so no backtracking is needed. -/
def reMatchDefaultMember (s : String) : Bool :=
  let cs := s.data
  let r1 := cs.dropWhile Char.isDigit
  match cs.takeWhile Char.isDigit, r1 with
  | _ :: _, '-' :: cs2 =>
    let r2 := cs2.dropWhile Char.isDigit
    match cs2.takeWhile Char.isDigit, r2 with
    | _ :: _, '-' :: cs3 => !(cs3.takeWhile Char.isDigit).isEmpty
    | _, _ => false
  | _, _ => false

/-- Observable actions of `Master.start`, in program order. -/
inductive MEffect
  /-- `get(conf.url)`: the index document fetch. -/
  | getIndex (url : String)
  /-- `worker.start()` for worker number `n`. -/
  | spawn (n : Nat)
  /-- `queue.put((year, index[year]))`. -/
  | putJob (year : String) (filename : String)
  /-- `LOG.warning('Cannot fetch %s. ...', conf.years, index.values())`:
  carries the requested years it reports. -/
  | warnNoWork (years : List String)
  /-- `LOG.info(f'Waiting for {pending}.')`: carries the pending years. -/
  | logWaiting (pending : List String)
deriving DecidableEq

/-- The slice of `Config` read by `Master.start`. -/
structure MConf where
  url : String
  years : List String
  workers_count : Nat
  run_time_max : Nat

/-- `requests.Response.raise_for_status()`: raises `HTTPError` exactly for
status codes in `[400, 600)`; for every other status it returns `None`. -/
def raiseForStatus (status : Nat) : Option PyError :=
  if 400 ≤ status ∧ status < 600 then some (.httpError status) else none

/-- `str.split(sep)` for a one-character separator: always returns at
least one (possibly empty) part. -/
def splitOnChar (c : Char) : List Char → List (List Char)
  | [] => [[]]
  | x :: xs =>
    if x = c then [] :: splitOnChar c xs
    else
      match splitOnChar c xs with
      | h :: t => (x :: h) :: t
      | [] => [[x]]

/-- `index[year] = filename`: dict update (replace the value if the key is
present, otherwise append the binding). -/
def idxSet (ix : List (String × String)) (k v : String) :
    List (String × String) :=
  if (ix.find? (fun e => e.1 == k)).isSome then
    ix.map (fun e => if e.1 == k then (k, v) else e)
  else
    ix ++ [(k, v)]

/-- `index[year]` / `year in index`. -/
def idxGet (ix : List (String × String)) (k : String) : Option String :=
  (ix.find? (fun e => e.1 == k)).map (fun e => e.2)

/-- The index-building loop of `Master.start`:
`_, year, *_ = filename.split('_'); index[year] = filename`
(a `ValueError` if a filename has fewer than two `_`-separated parts). -/
def buildIndex (filenames : List String) :
    Except PyError (List (String × String)) :=
  filenames.foldlM (fun ix fn =>
    match splitOnChar '_' fn.data with
    | _ :: y :: _ => .ok (idxSet ix (String.mk y) fn)
    | _ => .error .valueError) []

/-- `Master.start` after the index fetch: build the index, spawn the
workers, compute `pending`, and either raise
`RuntimeError('There is nothing to do.')` or enqueue one job per pending
year.  `es0` is the effect trace so far. -/
def masterAfterFetch (conf : MConf) (filenames : List String)
    (es0 : List MEffect) :
    Except PyError (List String × List (String × String)) × List MEffect :=
  match buildIndex filenames with
  | .error e => (.error e, es0)
  | .ok index =>
    let es1 := es0 ++ (List.range conf.workers_count).map MEffect.spawn
    let pending := (conf.years.filter (fun y => (idxGet index y).isSome)).dedup
    if pending.isEmpty then
      (.error (.runtimeError "There is nothing to do."),
       es1 ++ [.warnNoWork conf.years])
    else
      (.ok (pending, index),
       es1 ++ pending.map (fun y => .putJob y ((idxGet index y).getD "")))

/-- `Master.start` up to and including seeding the job queue, given the
status code of the index fetch and the archive filenames found by
`findall(index_regex, res.text)`.  Mirrors the source: on a non-success
status it calls `raise_for_status()`, which raises only for 4xx/5xx — any
other non-success status falls through and the run continues. -/
def masterPhase1 (conf : MConf) (status : Nat) (filenames : List String) :
    Except PyError (List String × List (String × String)) × List MEffect :=
  let es0 := [MEffect.getIndex conf.url]
  if 200 ≤ status ∧ status < 300 then
    masterAfterFetch conf filenames es0
  else
    match raiseForStatus status with
    | some e => (.error e, es0)
    | none => masterAfterFetch conf filenames es0

/-- `pending.discard(year)`: set removal, a no-op if absent. -/
def discardYear (pending : List String) (y : String) : List String :=
  pending.filter (fun z => !(z == y))

/-- `while not queue_done.empty(): pending.discard(queue_done.get())`:
drain a batch of CompletionSignals. -/
def drainQueueDone (pending : List String) (sigs : List String) :
    List String :=
  sigs.foldl discardYear pending

/-- Outcome of one polling-loop iteration that did not raise. -/
inductive LoopOut
  /-- the `while pending:` guard failed: `start` returns successfully. -/
  | allDone
  /-- the loop continues with the drained pending set. -/
  | cont (pending : List String)
deriving DecidableEq

/-- One iteration of the polling loop of `Master.start`: the loop guard,
the deadline check (`monotonic() - start > run_time_max`), the liveness
check, and the drain of `queue_done`, in source order. -/
def masterLoopIter (run_time_max start now : Nat) (alive : List Bool)
    (sigs : List String) (pending : List String) :
    Except PyError LoopOut × List MEffect :=
  if pending.isEmpty then (.ok .allDone, [])
  else if run_time_max < now - start then
    (.error (.runtimeError "There is some dangling work."), [])
  else if alive.any (fun a => !a) then
    (.error (.runtimeError "Some worker is dead :(."), [])
  else
    let p := drainQueueDone pending sigs
    (.ok (.cont p), [MEffect.logWaiting p])

/-- Decimal digits of `n`, most significant first, via fuel-indexed
recursion (`natDigitsAux (n+1) n` always has enough fuel). -/
def natDigitsAux : Nat → Nat → List Char
  | 0, _ => []
  | fuel + 1, n =>
    if n < 10 then [Char.ofNat (48 + n)]
    else natDigitsAux fuel (n / 10) ++ [Char.ofNat (48 + n % 10)]

/-- Decimal digits of `n`, most significant first. -/
def natDigits (n : Nat) : List Char :=
  natDigitsAux (n + 1) n

/-- `str(y)` for a Python int: its decimal representation. -/
def natRepr (n : Nat) : String :=
  String.mk (natDigits n)

/-- `int(s)` for a string of decimal digits: `none` (a `ValueError`) if
`s` is empty or contains a non-digit. -/
def parseDigits (cs : List Char) : Option Nat :=
  if !cs.isEmpty && cs.all Char.isDigit then
    some (cs.foldl (fun acc c => acc * 10 + (c.toNat - 48)) 0)
  else
    none

/-- Python string `<=`: lexicographic comparison by code point. -/
def lexLe : List Char → List Char → Bool
  | [], _ => true
  | _ :: _, [] => false
  | x :: xs, y :: ys => if x = y then lexLe xs ys else decide (x < y)

/-- Insert `s` into a sorted list, after all elements `≤` it. -/
def insertStr (s : String) : List String → List String
  | [] => [s]
  | t :: ts => if lexLe t.data s.data then t :: insertStr s ts else s :: t :: ts

/-- Python `sorted` on strings (insertion sort by `lexLe`). -/
def pySorted : List String → List String
  | [] => []
  | s :: rest => insertStr s (pySorted rest)

/-- `',' in inp` / `'-' in inp`: character membership. -/
def hasChar (s : String) (c : Char) : Bool :=
  decide (c ∈ s.data)

/-- `Config.normalize_years`:
`years = inp.split(',') if ',' in inp else inp.split('-')`;
if `'-' in inp` then `years = range(int(years[0]), int(years[1]) + 1)`;
return `sorted(str(y) for y in years)`. -/
def normalize_years (inp : String) : Except PyError (List String) :=
  let parts :=
    if hasChar inp ',' then splitOnChar ',' inp.data
    else splitOnChar '-' inp.data
  if hasChar inp '-' then
    match parts with
    | a :: b :: _ =>
      match parseDigits a, parseDigits b with
      | some av, some bv =>
        .ok (pySorted ((List.range' av (bv + 1 - av)).map natRepr))
      | _, _ => .error .valueError
    | _ => .error .valueError
  else
    .ok (pySorted (parts.map String.mk))

/-- A concrete worker configuration with the default member pattern,
`force=False`, `is_compress=False` and the default temp dir. -/
def confDefault : WConf :=
  { url := "https://www.ncei.noaa.gov/data/global-hourly/archive/isd/"
    memberMatch := reMatchDefaultMember
    force := false
    is_compress := false
    tmp_dir := "/tmp/noaa_stuff" }

/-- `confDefault` with `force := true`. -/
def confForce : WConf :=
  { confDefault with force := true }

/-- A concrete master configuration requesting year 1901 with two workers. -/
def mconf1901 : MConf :=
  { url := "https://www.ncei.noaa.gov/data/global-hourly/archive/isd/"
    years := ["1901"]
    workers_count := 2
    run_time_max := 300 }

/-- `mconf1901` requesting only the unavailable year 1950. -/
def mconf1950 : MConf :=
  { mconf1901 with years := ["1950"] }

/-- The scenario-A archive: members `010010-99999` and `README.txt`. -/
def scenarioAArchive : List Member :=
  [⟨"010010-99999", [1, 2, 3]⟩, ⟨"README.txt", [9]⟩]

/-- An archive with two members sharing one (matching) name. -/
def dupNameArchive : List Member :=
  [⟨"1-2-3", [1]⟩, ⟨"1-2-3", [2]⟩]

/-- Whether `needle` occurs at the start of `hay` (code-point equality). -/
def leadsWith : List Char → List Char → Bool
  | [], _ => true
  | _ :: _, [] => false
  | x :: xs, y :: ys => x = y && leadsWith xs ys

/-- Whether `needle` occurs contiguously anywhere inside `hay`. -/
def occursIn (needle : List Char) : List Char → Bool
  | [] => needle.isEmpty
  | y :: ys => leadsWith needle (y :: ys) || occursIn needle ys

instance {ε α : Type} [DecidableEq ε] [DecidableEq α] :
    DecidableEq (Except ε α) := fun x y =>
  match x, y with
  | .ok a, .ok b =>
    if h : a = b then isTrue (by rw [h])
    else isFalse (fun hc => h (Except.ok.inj hc))
  | .error a, .error b =>
    if h : a = b then isTrue (by rw [h])
    else isFalse (fun hc => h (Except.error.inj hc))
  | .ok _, .error _ => isFalse (fun hc => Except.noConfusion hc)
  | .error _, .ok _ => isFalse (fun hc => Except.noConfusion hc)

/-- Appending to a fixed prefix of path components is injective. -/
theorem pathJoin_inj {dir a b : String} (h : dir ++ "/" ++ a = dir ++ "/" ++ b) :
    a = b := by
  apply String.ext
  have h2 := congrArg String.data h
  simp only [String.data_append] at h2
  exact List.append_cancel_left h2

/-- Counting a character distributes over string append. -/
theorem count_char_append (c : Char) (s t : String) :
    ((s ++ t).data.count c) = s.data.count c + t.data.count c := by
  simp [String.data_append, List.count_append]

/-- A path written by extraction (`tmp_dir/year/name`, two extra slashes)
is never the output path (`./year` or `./year.gz`, one slash) as long as
the year itself contains no slash. -/
theorem extractPath_ne_outputPath (conf : WConf) (year n : String)
    (hy : '/' ∉ year.data) :
    tmpPath conf year ++ "/" ++ n ≠ outputPath conf year := by
  have hy0 : year.data.count '/' = 0 := List.count_eq_zero.mpr hy
  intro h
  have hc := congrArg (fun s : String => s.data.count '/') h
  simp only [tmpPath, outputPath] at hc
  have h1 : ("/" : String).data.count '/' = 1 := by decide
  have h2 : ("./" : String).data.count '/' = 1 := by decide
  have h3 : (".gz" : String).data.count '/' = 0 := by decide
  by_cases hz : conf.is_compress
  · rw [if_pos hz] at hc
    simp only [count_char_append, h1, h2, h3, hy0] at hc
    omega
  · rw [if_neg hz] at hc
    simp only [count_char_append, h1, h2, hy0] at hc
    omega

/-- Looking up the path just written returns the written content. -/
theorem lookupFS_writeFS_self (fs : FS) (p : String) (c : List Nat) :
    lookupFS (writeFS fs p c) p = some c := by
  simp [lookupFS, writeFS, List.find?_cons]

/-- Removing `p` does not change the lookup of a different path. -/
theorem lookupFS_removeFS_ne (fs : FS) {p q : String} (h : q ≠ p) :
    lookupFS (removeFS fs p) q = lookupFS fs q := by
  induction fs with
  | nil => rfl
  | cons e rest ih =>
    by_cases hep : e.1 = p
    · have hb : (!(e.1 == p)) = false := by simp [hep]
      have hq : (e.1 == q) = false := by
        simp [hep]
        exact fun hc => h hc.symm
      simp [lookupFS, removeFS, List.filter_cons, hb, List.find?_cons, hq] at *
      exact ih
    · have hb : (!(e.1 == p)) = true := by simp [hep]
      simp only [lookupFS, removeFS, List.filter_cons, hb, if_true,
        List.find?_cons]
      cases hq : (e.1 == q) with
      | true => rfl
      | false => simpa [lookupFS, removeFS] using ih

/-- Removing `p` removes it: the lookup of `p` afterwards fails. -/
theorem lookupFS_removeFS_self (fs : FS) (p : String) :
    lookupFS (removeFS fs p) p = none := by
  have : ∀ e ∈ removeFS fs p, ¬ ((fun e : String × List Nat => e.1 == p) e = true) := by
    intro e he
    have := (List.mem_filter.mp he).2
    simp at this ⊢
    exact this
  simp [lookupFS, List.find?_eq_none.mpr this]

/-- Writing `p` does not change the lookup of a different path. -/
theorem lookupFS_writeFS_ne (fs : FS) {p q : String} (h : q ≠ p)
    (c : List Nat) : lookupFS (writeFS fs p c) q = lookupFS fs q := by
  have hq : (p == q) = false := by
    simp
    exact fun hc => h hc.symm
  simp only [writeFS, lookupFS, List.find?_cons, hq]
  exact lookupFS_removeFS_ne fs h

/-- Looking up `dir/n` after extraction: the content of the last archive
member named `n` (later writes overwrite earlier ones), falling back to
the previous filesystem if no member is named `n`. -/
theorem lookupFS_extractAllFS_mem (fs : FS) (dir : String)
    (ms : List Member) (n : String) :
    lookupFS (extractAllFS fs dir ms) (dir ++ "/" ++ n) =
      match (ms.filter (fun m => m.name == n)).getLast? with
      | some m => some m.content
      | none => lookupFS fs (dir ++ "/" ++ n) := by
  induction ms generalizing fs with
  | nil => rfl
  | cons m rest ih =>
    simp only [extractAllFS, List.foldl_cons] at *
    rw [ih]
    by_cases hb : m.name = n
    · have hbt : (m.name == n) = true := by simp [hb]
      rw [List.filter_cons, hbt, if_pos rfl]
      cases hfl : rest.filter (fun x => x.name == n) with
      | nil =>
        simp only [hfl, List.getLast?_nil, List.getLast?_singleton]
        rw [← hb, lookupFS_writeFS_self]
      | cons k ks =>
        simp only [hfl, List.getLast?_cons_cons]
        cases h2 : (k :: ks).getLast? with
        | none => simp [List.getLast?] at h2
        | some j => rfl
    · have hbf : (m.name == n) = false := by simp [hb]
      rw [List.filter_cons, hbf, if_neg (by simp)]
      cases hfl : (rest.filter (fun x => x.name == n)).getLast? with
      | none =>
        exact lookupFS_writeFS_ne fs
          (fun hc => hb (pathJoin_inj hc).symm) m.content
      | some j => rfl

/-- Extraction does not change the lookup of a path it never writes. -/
theorem lookupFS_extractAllFS_other (fs : FS) (dir : String)
    (ms : List Member) (q : String)
    (h : ∀ m ∈ ms, dir ++ "/" ++ m.name ≠ q) :
    lookupFS (extractAllFS fs dir ms) q = lookupFS fs q := by
  induction ms generalizing fs with
  | nil => rfl
  | cons m rest ih =>
    simp only [extractAllFS, List.foldl_cons] at *
    rw [ih (writeFS fs (dir ++ "/" ++ m.name) m.content)
      (fun x hx => h x (List.mem_cons_of_mem m hx))]
    exact lookupFS_writeFS_ne fs
      (fun hc => h m (List.mem_cons_self m rest) hc.symm) m.content

/-- With pairwise-distinct member names, filtering an archive by the name
of one of its members yields exactly that member. -/
theorem filter_name_of_nodup (ms : List Member) (m : Member)
    (hnd : (ms.map Member.name).Nodup) (hm : m ∈ ms) :
    ms.filter (fun x => x.name == m.name) = [m] := by
  induction ms with
  | nil => cases hm
  | cons a rest ih =>
    rw [List.map_cons, List.nodup_cons] at hnd
    rcases List.mem_cons.mp hm with hma | hma
    · subst hma
      rw [List.filter_cons, if_pos (by simp)]
      have : rest.filter (fun x => x.name == m.name) = [] := by
        apply List.filter_eq_nil_iff.mpr
        intro x hx
        simp only [beq_iff_eq]
        intro hc
        exact hnd.1 (hc ▸ List.mem_map_of_mem Member.name hx)
      rw [this]
    · have hne : (a.name == m.name) = false := by
        simp only [beq_eq_false_iff_ne]
        intro hc
        exact hnd.1 (hc ▸ List.mem_map_of_mem Member.name hma)
      rw [List.filter_cons, hne, if_neg (by simp)]
      exact ih hnd.2 hma

/-- For a name that does occur in the archive, the extracted file's
content is `lastContent` (no fallback to the previous filesystem). -/
theorem extract_lookup_eq_lastContent (fs : FS) (dir : String)
    (ms : List Member) (n : String) (hn : n ∈ ms.map Member.name) :
    (lookupFS (extractAllFS fs dir ms) (dir ++ "/" ++ n)).getD [] =
      lastContent ms n := by
  rw [lookupFS_extractAllFS_mem, lastContent]
  obtain ⟨m, hm, hname⟩ := List.mem_map.mp hn
  have hmem : m ∈ ms.filter (fun x => x.name == n) :=
    List.mem_filter.mpr ⟨hm, by simp [hname]⟩
  cases hL : (ms.filter (fun x => x.name == n)).getLast? with
  | none =>
    rw [List.getLast?_eq_none_iff.mp hL] at hmem
    cases hmem
  | some j => rfl

/-- The bytes the worker reads back from the extraction directory, for an
archive with pairwise-distinct member names: exactly the matching members'
contents, in listing order. -/
theorem worker_bytes_eq_of_nodup (fs : FS) (dir : String)
    (p : String → Bool) (ms : List Member)
    (hnd : (ms.map Member.name).Nodup) :
    ((ms.map Member.name).filter p).map
        (fun n => (lookupFS (extractAllFS fs dir ms) (dir ++ "/" ++ n)).getD [])
      = (ms.filter (fun m => p m.name)).map Member.content := by
  rw [List.filter_map, List.map_map]
  apply List.map_congr_left
  intro m hm
  have hm' : m ∈ ms := List.mem_of_mem_filter hm
  show (lookupFS (extractAllFS fs dir ms) (dir ++ "/" ++ m.name)).getD []
    = m.content
  rw [lookupFS_extractAllFS_mem, filter_name_of_nodup ms m hnd hm']
  rfl

/-- Draining a batch of signals is filtering by non-membership: the result
depends only on which years occur, not on how often. -/
theorem drainQueueDone_eq_filter (p sigs : List String) :
    drainQueueDone p sigs = p.filter (fun y => !(sigs.contains y)) := by
  induction sigs generalizing p with
  | nil => simp [drainQueueDone]
  | cons s rest ih =>
    show drainQueueDone (discardYear p s) rest = _
    rw [ih]
    rw [discardYear, List.filter_filter]
    apply List.filter_congr
    intro y _
    by_cases hys : y = s
    · subst hys
      simp [List.contains_cons]
    · simp [List.contains_cons, hys]

/-- Discarding a second copy of a signal in the same batch is a no-op. -/
theorem discardYear_idem (p : List String) (y : String) :
    discardYear (discardYear p y) y = discardYear p y := by
  rw [discardYear, discardYear, List.filter_filter]
  apply List.filter_congr
  intro z _
  simp

/-- Discarding an absent year leaves the pending set unchanged. -/
theorem discardYear_of_not_mem (p : List String) (y : String)
    (h : y ∉ p) : discardYear p y = p := by
  apply List.filter_eq_self.mpr
  intro z hz
  have : z ≠ y := fun hc => h (hc ▸ hz)
  simp [this]

/-- A character absent from the list never splits it. -/
theorem splitOnChar_of_not_mem {c : Char} {l : List Char} (h : c ∉ l) :
    splitOnChar c l = [l] := by
  induction l with
  | nil => rfl
  | cons x xs ih =>
    have hx : ¬ x = c := fun hc => h (hc ▸ List.mem_cons_self x xs)
    have hxs : c ∉ xs := fun hc => h (List.mem_cons_of_mem x hc)
    simp only [splitOnChar, if_neg hx, ih hxs]

/-- Splitting at the first occurrence of the separator. -/
theorem splitOnChar_append {c : Char} {a : List Char} (b : List Char)
    (ha : c ∉ a) : splitOnChar c (a ++ c :: b) = a :: splitOnChar c b := by
  induction a with
  | nil => simp [splitOnChar]
  | cons x xs ih =>
    have hx : ¬ x = c := fun hc => ha (hc ▸ List.mem_cons_self x xs)
    have hxs : c ∉ xs := fun hc => ha (List.mem_cons_of_mem x hc)
    show splitOnChar c (x :: (xs ++ c :: b)) = (x :: xs) :: splitOnChar c b
    rw [splitOnChar, if_neg hx, ih hxs]

/-- Digits are not `-`. -/
theorem digit_ne_dash {c : Char} (h : c.isDigit = true) : c ≠ '-' := by
  intro he
  rw [he] at h
  exact absurd h (by decide)

/-- Digits are not `,`. -/
theorem digit_ne_comma {c : Char} (h : c.isDigit = true) : c ≠ ',' := by
  intro he
  rw [he] at h
  exact absurd h (by decide)

/-- `-` does not occur in an all-digits character list. -/
theorem dash_not_mem_of_digits {l : List Char} (h : l.all Char.isDigit = true) :
    '-' ∉ l := by
  intro hm
  exact digit_ne_dash (List.all_eq_true.mp h '-' hm) rfl

/-- `,` does not occur in an all-digits character list. -/
theorem comma_not_mem_of_digits {l : List Char}
    (h : l.all Char.isDigit = true) : ',' ∉ l := by
  intro hm
  exact digit_ne_comma (List.all_eq_true.mp h ',' hm) rfl

/-- C1: if the archive GET returns a status outside [200, 300), the worker
returns normally (no exception) with the filesystem unchanged — no output
file is created and no extraction happens — and the trace is exactly the
GET request, the warning, and one CompletionSignal for the year: the job
is treated as finished. -/
theorem worker_fetch_failure_marks_done (conf : WConf) (fs : FS)
    (year filename : String) (status : Nat) (body : Option (List Member))
    (h : ¬ (200 ≤ status ∧ status < 300)) :
    workerStep conf fs year filename status body =
      .ok (fs, [.get (conf.url ++ filename), .warnCannotDownload filename,
                .done year]) := by
  simp only [workerStep, if_pos h]

/-- Witness for C1 at status 500 (and a body that is not even a valid
archive, which the failure branch never reads). -/
theorem worker_fetch_failure_marks_done_witness :
    workerStep confDefault [] "1901" "f" 500 none =
      .ok ([], [.get (confDefault.url ++ "f"), .warnCannotDownload "f",
                .done "1901"]) :=
  worker_fetch_failure_marks_done confDefault [] "1901" "f" 500 none
    (by decide)

/-- C4: if the output path already exists and `force` is false, the worker
skips the job: the filesystem is unchanged (no extraction, no temp writes,
no append) and the trace holds no `readBody` — the response body is never
read from the network — only the already-issued streaming GET request, the
log record, and exactly one CompletionSignal.  (The GET request itself is
issued before the existence check, as §4.2 of the spec orders.) -/
theorem worker_skips_existing_output (conf : WConf) (fs : FS)
    (year filename : String) (status : Nat) (body : Option (List Member))
    (hs : 200 ≤ status ∧ status < 300)
    (hex : isFileFS fs (outputPath conf year) = true)
    (hforce : conf.force = false) :
    workerStep conf fs year filename status body =
      .ok (fs, [.get (conf.url ++ filename), .infoExists year,
                .done year]) := by
  simp only [workerStep, if_neg (not_not_intro hs), hex, hforce,
    Bool.not_false, Bool.and_true, if_pos]

/-- Witness for C4: output `./1901` already exists, `force` is false. -/
theorem worker_skips_existing_output_witness :
    workerStep confDefault [("./1901", [7])] "1901" "f" 200 none =
      .ok ([("./1901", [7])],
           [.get (confDefault.url ++ "f"), .infoExists "1901",
            .done "1901"]) :=
  worker_skips_existing_output confDefault [("./1901", [7])] "1901" "f" 200
    none (by decide) (by decide) rfl

/-- C2: draining a batch of CompletionSignals removes each year at most
once — the result is the membership filter, so duplicate signals in the
same batch have no extra effect (explicitly, discarding a signal twice
equals discarding it once) — and discarding a year that is already absent
leaves the pending set unchanged. -/
theorem pending_removal_idempotent (p sigs : List String) :
    drainQueueDone p sigs = p.filter (fun y => !(sigs.contains y)) ∧
    (∀ s rest, drainQueueDone p (s :: s :: rest) =
      drainQueueDone p (s :: rest)) ∧
    (∀ y, y ∉ p → discardYear p y = p) := by
  refine ⟨drainQueueDone_eq_filter p sigs, ?_, ?_⟩
  · intro s rest
    show drainQueueDone (discardYear (discardYear p s) s) rest =
      drainQueueDone (discardYear p s) rest
    rw [discardYear_idem]
  · intro y hy
    exact discardYear_of_not_mem p y hy

/-- Witness for C2: a batch with a duplicate and an unknown year, and a
discard of an absent year. -/
theorem pending_removal_idempotent_witness :
    drainQueueDone ["1901", "1902"] ["1902", "1902", "1903"] = ["1901"] ∧
    discardYear ["1901"] "2000" = ["1901"] := by
  constructor
  · rw [(pending_removal_idempotent ["1901", "1902"]
      ["1902", "1902", "1903"]).1]
    decide
  · exact (pending_removal_idempotent ["1901"] []).2.2 "2000" (by decide)

/-- C3 (counterexample): when the deadline is exceeded the loop raises
`RuntimeError('There is some dangling work.')` — a constant message that
does not contain the pending year `1901` (the same error value is raised
whatever the pending set is), so the error does not report the
still-pending years. -/
theorem deadline_error_lacks_pending_years :
    masterLoopIter 300 0 301 [true, true] [] ["1901"] =
      (.error (.runtimeError "There is some dangling work."), []) ∧
    masterLoopIter 300 0 301 [true, true] [] ["2222"] =
      (.error (.runtimeError "There is some dangling work."), []) ∧
    occursIn "1901".data "There is some dangling work.".data = false := by
  decide

/-- C3 (amended): in every poll-loop iteration with a non-empty pending
set, once the elapsed time exceeds `run_time_max` the loop fails with
`RuntimeError('There is some dangling work.')`; the error carries only
that constant message and the failing branch emits no record of the
pending years. -/
theorem deadline_exceeded_raises (run_time_max start now : Nat)
    (alive : List Bool) (sigs pending : List String)
    (hne : pending ≠ []) (hdl : run_time_max < now - start) :
    masterLoopIter run_time_max start now alive sigs pending =
      (.error (.runtimeError "There is some dangling work."), []) := by
  have hp : pending.isEmpty = false := by
    cases pending with
    | nil => exact absurd rfl hne
    | cons a l => rfl
  simp only [masterLoopIter, hp, Bool.false_eq_true, if_false, if_pos hdl]

/-- Witness for C3's amended theorem. -/
theorem deadline_exceeded_raises_witness :
    masterLoopIter 1 0 5 [true] [] ["1901"] =
      (.error (.runtimeError "There is some dangling work."), []) :=
  deadline_exceeded_raises 1 0 5 [true] [] ["1901"] (by decide) (by decide)

/-- C6: when the intersection of the requested years and the resolved
index is empty, `Master.start` raises `RuntimeError('There is nothing to
do.')` after having spawned all `workers_count` workers and after logging
the warning that reports the requested (all unavailable) years; no job is
ever enqueued. -/
theorem no_work_error_after_spawning (conf : MConf) (status : Nat)
    (filenames : List String) (index : List (String × String))
    (hs : 200 ≤ status ∧ status < 300)
    (hidx : buildIndex filenames = .ok index)
    (hempty : conf.years.filter (fun y => (idxGet index y).isSome) = []) :
    masterPhase1 conf status filenames =
      (.error (.runtimeError "There is nothing to do."),
       [MEffect.getIndex conf.url]
         ++ (List.range conf.workers_count).map MEffect.spawn
         ++ [.warnNoWork conf.years]) := by
  simp only [masterPhase1, if_pos hs, masterAfterFetch, hidx, hempty,
    List.dedup_nil, List.isEmpty_nil, if_pos]

/-- Witness for C6: year 1950 requested, only 1901 in the index. -/
theorem no_work_error_after_spawning_witness :
    masterPhase1 mconf1950 200 ["isd_1901_c20180826T025524.tar.gz"] =
      (.error (.runtimeError "There is nothing to do."),
       [.getIndex mconf1950.url, .spawn 0, .spawn 1,
        .warnNoWork ["1950"]]) := by
  rw [no_work_error_after_spawning mconf1950 200
    ["isd_1901_c20180826T025524.tar.gz"]
    [("1901", "isd_1901_c20180826T025524.tar.gz")]
    (by decide) (by decide) (by decide)]
  decide

/-- C5: the claim says any index-fetch status outside [200, 300) aborts
the run before work reaches the workers, and the guard
`if not (200 <= res.status_code < 300)` shows that intent — but the body
of the guard is `res.raise_for_status()`, which raises only for statuses
in [400, 600).  At status 304 the run does not abort: the index is built,
all workers are spawned, and the job for 1901 is enqueued. -/
theorem index_fetch_304_not_aborted :
    raiseForStatus 304 = none ∧
    ¬ (200 ≤ 304 ∧ 304 < 300) ∧
    (masterPhase1 mconf1901 304 ["isd_1901_c20180826T025524.tar.gz"]).1 =
      .ok (["1901"], [("1901", "isd_1901_c20180826T025524.tar.gz")]) ∧
    MEffect.putJob "1901" "isd_1901_c20180826T025524.tar.gz" ∈
      (masterPhase1 mconf1901 304 ["isd_1901_c20180826T025524.tar.gz"]).2 := by
  decide

/-- C7 (counterexample): with two members sharing the (matching) name
`1-2-3` and contents `[1]` and `[2]`, extraction overwrites the first
extracted file with the second, so the worker appends `[2, 2]` — not the
concatenation `[1, 2]` of the matching members' contents in listing
order. -/
theorem worker_order_claim_fails_on_duplicate_names :
    appendedBytes (workerStep confDefault [] "1901" "f" 200
        (some dupNameArchive)) = [2, 2] ∧
    ((dupNameArchive.filter
        (fun m => confDefault.memberMatch m.name)).map Member.content).flatten
      = [1, 2] ∧
    appendedBytes (workerStep confDefault [] "1901" "f" 200
        (some dupNameArchive)) ≠
      ((dupNameArchive.filter
        (fun m => confDefault.memberMatch m.name)).map Member.content).flatten := by
  decide

/-- C7 (amended): provided the archive's member names are pairwise
distinct, a job processed to completion (success status, output not yet
present) appends exactly the concatenation of the extracted files of the
members whose names match, in the archive's member listing order — so
permuting the members of such an archive permutes the output bytes
identically. -/
theorem worker_appends_members_in_listing_order (conf : WConf) (fs : FS)
    (year filename : String) (status : Nat) (archive : List Member)
    (hs : 200 ≤ status ∧ status < 300)
    (hout : isFileFS fs (outputPath conf year) = false)
    (hnd : (archive.map Member.name).Nodup) :
    workerRunTrace (workerStep conf fs year filename status (some archive)) =
      [.get (conf.url ++ filename), .mkdirTmp (tmpPath conf year), .readBody,
       .extractAll (tmpPath conf year),
       .append (outputPath conf year)
         (((archive.filter (fun m => conf.memberMatch m.name)).map
            Member.content).flatten),
       .done year] := by
  simp only [workerStep, if_neg (not_not_intro hs), hout, Bool.false_and,
    Bool.false_eq_true, if_false, worker_bytes_eq_of_nodup fs
      (tmpPath conf year) conf.memberMatch archive hnd]
  rfl

/-- Witness for C7's amended theorem: one matching and one non-matching
member with distinct names. -/
theorem worker_appends_members_in_listing_order_witness :
    workerRunTrace (workerStep confDefault [] "1901" "f" 200
        (some [⟨"1-2-3", [5]⟩, ⟨"README.txt", [7]⟩])) =
      [.get (confDefault.url ++ "f"), .mkdirTmp "/tmp/noaa_stuff/1901",
       .readBody, .extractAll "/tmp/noaa_stuff/1901",
       .append "./1901" [5], .done "1901"] := by
  rw [worker_appends_members_in_listing_order confDefault [] "1901" "f" 200
    [⟨"1-2-3", [5]⟩, ⟨"README.txt", [7]⟩] (by decide) (by decide) (by decide)]
  decide

/-- C8 (counterexample): the default member pattern `\d+-\d+-\d+` requires
three digit groups, but `010010-99999` has only two, so — contrary to the
claim — it is not selected, and in the scenario-A run the output `./1901`
does not contain its bytes `[1, 2, 3]`. -/
theorem scenario_a_member_not_selected :
    reMatchDefaultMember "010010-99999" = false ∧
    outputContentAfter (workerStep confDefault [] "1901"
        "isd_1901_c20180826T025524.tar.gz" 200 (some scenarioAArchive))
        "./1901" ≠ some [1, 2, 3] := by
  decide

/-- C8 (amended): under the default member pattern neither `010010-99999`
(two digit groups; the pattern needs three, e.g. `010010-99999-1901`
matches) nor `README.txt` is selected, so in scenario A the run creates
the output `./1901` empty. -/
theorem scenario_a_output_empty :
    reMatchDefaultMember "010010-99999" = false ∧
    reMatchDefaultMember "README.txt" = false ∧
    reMatchDefaultMember "010010-99999-1901" = true ∧
    outputContentAfter (workerStep confDefault [] "1901"
        "isd_1901_c20180826T025524.tar.gz" 200 (some scenarioAArchive))
        "./1901" = some [] := by
  decide

/-- C9: when `force` is true and the output already exists, the worker
deletes the stale file before appending (the `removeF` effect precedes the
`append` in the trace), so after the job the output contains exactly the
current run's concatenation `aggregateBytes` — independent of whatever the
file held before.  (`year` contains no slash, as real years do, so the
extraction directory cannot alias the output path.) -/
theorem force_overwrite_fresh_output (conf : WConf) (fs : FS)
    (year filename : String) (status : Nat) (archive : List Member)
    (hs : 200 ≤ status ∧ status < 300)
    (hex : isFileFS fs (outputPath conf year) = true)
    (hforce : conf.force = true)
    (hyear : '/' ∉ year.data) :
    workerRunTrace (workerStep conf fs year filename status (some archive)) =
      [.get (conf.url ++ filename), .infoRemoving year,
       .removeF (outputPath conf year), .mkdirTmp (tmpPath conf year),
       .readBody, .extractAll (tmpPath conf year),
       .append (outputPath conf year)
         (aggregateBytes conf.memberMatch archive),
       .done year] ∧
    outputContentAfter (workerStep conf fs year filename status
        (some archive)) (outputPath conf year) =
      some (aggregateBytes conf.memberMatch archive) := by
  have hcond : (isFileFS fs (outputPath conf year) && !conf.force) = false := by
    rw [hex, hforce]
    rfl
  have hrem : (isFileFS fs (outputPath conf year) && conf.force) = true := by
    rw [hex, hforce]
    rfl
  have hfs2 : lookupFS (extractAllFS (removeFS fs (outputPath conf year))
      (tmpPath conf year) archive) (outputPath conf year) = none := by
    rw [lookupFS_extractAllFS_other _ _ _ _
      (fun m _ => extractPath_ne_outputPath conf year m.name hyear),
      lookupFS_removeFS_self]
  have hbytes : ((archive.map Member.name).filter conf.memberMatch).map
      (fun n => (lookupFS (extractAllFS (removeFS fs (outputPath conf year))
        (tmpPath conf year) archive) (tmpPath conf year ++ "/" ++ n)).getD [])
      = ((archive.map Member.name).filter conf.memberMatch).map
        (lastContent archive) :=
    List.map_congr_left (fun n hn =>
      extract_lookup_eq_lastContent _ _ archive n (List.mem_of_mem_filter hn))
  constructor
  · simp only [workerRunTrace, workerStep, if_neg (not_not_intro hs), hcond,
      Bool.false_eq_true, if_false, hrem, if_true, hbytes, aggregateBytes]
    rfl
  · simp only [outputContentAfter, workerStep, if_neg (not_not_intro hs),
      hcond, Bool.false_eq_true, if_false, hrem, if_true, hfs2, hbytes,
      Option.getD_none, List.nil_append, lookupFS_writeFS_self,
      aggregateBytes]

/-- Witness for C9: the stale content `[9, 9]` is replaced by the fresh
concatenation `[5]`. -/
theorem force_overwrite_fresh_output_witness :
    outputContentAfter (workerStep confForce [("./1901", [9, 9])] "1901" "f"
        200 (some [⟨"1-2-3", [5]⟩])) "./1901" = some [5] := by
  have h := (force_overwrite_fresh_output confForce [("./1901", [9, 9])]
    "1901" "f" 200 [⟨"1-2-3", [5]⟩] (by decide) (by decide) rfl
    (by decide)).2
  rw [show outputPath confForce "1901" = "./1901" from by decide] at h
  rw [h]
  decide

/-- C10: for an input `A-B` built from two decimal numerals with `A ≤ B`,
`normalize_years` returns the (lexicographically, as Python sorts strings)
sorted list of the decimal representations of every year from `A` to `B`
inclusive; for a comma-separated input containing no `-`, it returns the
sorted list of the comma-separated parts. -/
theorem normalize_years_ranges_and_lists :
    (∀ (a b : List Char) (av bv : Nat),
      a.all Char.isDigit = true → b.all Char.isDigit = true →
      parseDigits a = some av → parseDigits b = some bv → av ≤ bv →
      normalize_years ⟨a ++ '-' :: b⟩ =
        .ok (pySorted ((List.range' av (bv - av + 1)).map natRepr))) ∧
    (∀ s : String, ',' ∈ s.data → '-' ∉ s.data →
      normalize_years s =
        .ok (pySorted ((splitOnChar ',' s.data).map String.mk))) := by
  constructor
  · intro a b av bv ha hb hpa hpb hab
    have hda : '-' ∉ a := dash_not_mem_of_digits ha
    have hdb : '-' ∉ b := dash_not_mem_of_digits hb
    have hca : ',' ∉ a := comma_not_mem_of_digits ha
    have hcb : ',' ∉ b := comma_not_mem_of_digits hb
    have hdata : (String.mk (a ++ '-' :: b)).data = a ++ '-' :: b := rfl
    have hcomma : hasChar ⟨a ++ '-' :: b⟩ ',' = false := by
      simp only [hasChar, hdata, decide_eq_false_iff_not]
      intro hm
      rcases List.mem_append.mp hm with h1 | h1
      · exact hca h1
      · rcases List.mem_cons.mp h1 with h2 | h2
        · exact absurd h2 (by decide)
        · exact hcb h2
    have hdash : hasChar ⟨a ++ '-' :: b⟩ '-' = true := by
      simp only [hasChar, hdata, decide_eq_true_eq]
      exact List.mem_append.mpr (Or.inr (List.mem_cons_self _ _))
    have hsplit : splitOnChar '-' (a ++ '-' :: b) = [a, b] := by
      rw [splitOnChar_append b hda, splitOnChar_of_not_mem hdb]
    have harith : bv + 1 - av = bv - av + 1 := by omega
    simp only [normalize_years, hcomma, Bool.false_eq_true, if_false, hdash,
      if_true, hdata, hsplit, hpa, hpb, harith]
  · intro s hc hd
    have hcomma : hasChar s ',' = true := by simp [hasChar, hc]
    have hdash : hasChar s '-' = false := by simp [hasChar, hd]
    simp only [normalize_years, hcomma, if_true, hdash, Bool.false_eq_true,
      if_false]

/-- Witness for C10: a range input and a comma input. -/
theorem normalize_years_ranges_and_lists_witness :
    normalize_years "1901-1903" = .ok ["1901", "1902", "1903"] ∧
    normalize_years "1902,1901" = .ok ["1901", "1902"] := by
  constructor
  · have h := normalize_years_ranges_and_lists.1 "1901".data "1903".data
      1901 1903 (by decide) (by decide) (by decide) (by decide) (by decide)
    rw [show ("1901-1903" : String) = ⟨"1901".data ++ '-' :: "1903".data⟩
      from by decide, h]
    decide
  · have h := normalize_years_ranges_and_lists.2 "1902,1901" (by decide)
      (by decide)
    rw [h]
    decide
